import Mathlib

/-!
Verification development for a small 16-bit machine-code interpreter
(an LC-3 style virtual machine, sources src/vm.rs and src/main.rs).

The Rust sources are shallowly embedded: machine words are `Nat` with
explicit reduction modulo 2 ^ 16 wherever the Rust u16 arithmetic wraps,
the backing storage Vec is a function `Nat -> Nat` together with its
allocated length `memLen`, and every operation that can panic in Rust
(out-of-bounds Vec indexing, `unwrap`, `unimplemented!`) or block forever
(a byte read with no byte ever arriving) is `Option`-valued, `none`
standing for the aborted or stuck execution.

External input and output collaborators: output bytes are returned as
`List Nat`; input is an `Env` record carrying the outcome of the readiness
poll and the stream of bytes that will arrive on stdin.
-/

/-- Memory mapped keyboard status register address, `KBSR` in vm.rs. -/
def KBSR : Nat := 0xFE00

/-- Memory mapped keyboard data register address, `KBDR` in vm.rs. -/
def KBDR : Nat := 0xFE02

/-- Memory mapped display status register address, `DSR` in vm.rs. -/
def DSR : Nat := 0xFE04

/-- Memory mapped display data register address, `DDR` in vm.rs. -/
def DDR : Nat := 0xFE06

/-- The 16 opcodes, one per 4-bit value, mirroring `enum Opcode` in vm.rs
(discriminants Br = 0, Add = 1, ..., Trap = 15). -/
inductive Opcode where
  | Br | Add | Ld | St | Jsr | And | Ldr | Str
  | Rti | Not | Ldi | Sti | Jmp | Reserved | Lea | Trap
deriving DecidableEq, Repr

/-- Embedding of `TryFrom<u16> for Opcode`: values above `Opcode::Trap as u16`
(15) are rejected, otherwise the value is transmuted to the opcode with that
discriminant. -/
def tryFromOpcode (v : Nat) : Option Opcode :=
  if v > 15 then none
  else some (match v with
    | 0 => .Br | 1 => .Add | 2 => .Ld | 3 => .St
    | 4 => .Jsr | 5 => .And | 6 => .Ldr | 7 => .Str
    | 8 => .Rti | 9 => .Not | 10 => .Ldi | 11 => .Sti
    | 12 => .Jmp | 13 => .Reserved | 14 => .Lea | _ => .Trap)

/-- Condition code value computed by `Vm::set_cc` from a just-written register
value: `Flag::Zero as u16` (2) when the value is 0, `Flag::Neg as u16` (4)
when bit 15 is set, `Flag::Pos as u16` (1) otherwise. -/
def flagVal (v : Nat) : Nat :=
  if v = 0 then 2 else if v &&& 32768 ≠ 0 then 4 else 1

/-- Embedding of `sign_ext` from vm.rs: mask `val` to the low `bits` bits
(`val &= (1 << bits) - 1`), then, when the new top bit is set, or in
`0xFFFF << bits` (a wrapping u16 shift). All u16 operations that can exceed
16 bits carry an explicit reduction modulo 65536. -/
def sign_ext (val bits : Nat) : Nat :=
  let v := val &&& ((1 <<< bits) % 65536 - 1)
  if (v >>> (bits - 1)) &&& 1 ≠ 0 then v ||| ((0xFFFF <<< bits) % 65536) else v

/-- Modelled from the spec (section 4.4 and section 8): sign extension of a
`b`-bit field first masks to the low `b` bits and then replicates bit `b - 1`
into all higher bits of a 16-bit result; setting bits `b` through 15 adds
`2 ^ 16 - 2 ^ b`. Used as the specification side of the refinement claim about
`sign_ext`. -/
def specSignExt (v b : Nat) : Nat :=
  let m := v % 2 ^ b
  if m.testBit (b - 1) then m + (65536 - 2 ^ b) else m

/-- Machine state of `struct Vm`: the backing storage Vec (its allocated
length `memLen` and contents `mem`), the program counter, the eight general
registers as a function, and the processor status register holding the
condition code. -/
structure Vm where
  memLen : Nat
  mem : Nat → Nat
  pc : Nat
  reg : Nat → Nat
  psr : Nat

/-- Embedding of `Vm::new`: the storage Vec is allocated with
`std::u16::MAX as usize` = 65535 zeroed entries (note: not 65536), registers
zeroed, pc and psr from the arguments. -/
def Vm.new (pc psr : Nat) : Vm :=
  { memLen := 65535, mem := fun _ => 0, pc := pc, reg := fun _ => 0, psr := psr }

instance : Inhabited Vm := ⟨Vm.new 0 0⟩

/-- State of the external input collaborator. `selectOk` is the outcome of
the `select(2)` call made by `is_ready_to_read` (true exactly when the call
itself returns Ok; with a zero timeout select returns Ok with a count of 0
when no byte is pending, so in a run of the real program `selectOk` is true
even when no byte is available). `avail` is the ground truth of whether a
byte is currently available without blocking. `input` is the stream of bytes
that will ever arrive on stdin. -/
structure Env where
  selectOk : Bool
  avail : Bool
  input : List Nat

instance : Inhabited Env := ⟨⟨true, false, []⟩⟩

/-- Embedding of `is_ready_to_read` from vm.rs: it returns
`select(1, &mut read_fds, None, None, &mut timeout).is_ok()` — only whether
the select call succeeded, never inspecting how many descriptors are ready,
so the `avail` field of the environment is not consulted. -/
def is_ready_to_read (env : Env) : Bool :=
  env.selectOk

/-- Embedding of `getch` from main.rs: loop on reading one byte from stdin
until a byte arrives. When no byte ever arrives the loop never returns,
modelled as `none`; otherwise the head of the input stream is consumed. -/
def getch (env : Env) : Option (Nat × Env) :=
  match env.input with
  | [] => none
  | b :: rest => some (b % 256, { env with input := rest })

/-- Value produced by reading the keyboard status register, the `KBSR` arm of
`Vm::read_mem`: 0x80 when `is_ready_to_read()` else 0. -/
def kbsrVal (env : Env) : Nat :=
  if is_ready_to_read env then 0x80 else 0

/-- Embedding of `Vm::read_mem`. The four device addresses are intercepted
before the backing storage is indexed; the `KBDR` arm re-reads `KBSR` (here
`kbsrVal`, definitionally the value `read_mem` yields at `KBSR`) and only
then performs the blocking `getch`. A plain address indexes the Vec, which
panics (`none`) when the address is not below the allocated length. -/
def read_mem (vm : Vm) (addr : Nat) (env : Env) : Option (Nat × Env) :=
  if addr = KBSR then some (kbsrVal env, env)
  else if addr = KBDR then
    (if kbsrVal env ≠ 0 then getch env else some (0, env))
  else if addr = DSR then some (0x80, env)
  else if addr = DDR then some (0, env)
  else if addr < vm.memLen then some (vm.mem addr, env)
  else none

/-- Embedding of `Vm::write_mem`. Writes to `KBSR`, `KBDR` and `DSR` are
dropped; a write to `DDR` emits the low byte of the value to the output
collaborator; any other address stores into the Vec, panicking (`none`) when
the address is not below the allocated length. -/
def write_mem (vm : Vm) (addr val : Nat) : Option (Vm × List Nat) :=
  if addr = KBSR ∨ addr = KBDR ∨ addr = DSR then some (vm, [])
  else if addr = DDR then some (vm, [val % 256])
  else if addr < vm.memLen then
    some ({ vm with mem := fun a => if a = addr then val else vm.mem a }, [])
  else none

/-- Embedding of `Vm::set_cc`: replace the whole psr by the flag value of the
register just written. -/
def set_cc (vm : Vm) (r : Nat) : Vm :=
  { vm with psr := flagVal (vm.reg r) }

/-- Register write `self.reg[i] = v` on the register file function. -/
def set_reg (vm : Vm) (i v : Nat) : Vm :=
  { vm with reg := fun j => if j = i then v else vm.reg j }

/-- Embedding of `Vm::read_image` on an already-read byte sequence. The first
two bytes are the big-endian origin (fewer than two bytes panics, `none`); the
pc is set to the origin before any size check; when the image word count
(remaining bytes divided by two) exceeds `u16::MAX` = 65535 the load bails out
with the ImageTooLarge condition (`some (_, false)`); otherwise the
destination slice `memory[origin .. origin + len]` is taken, panicking
(`none`) when it runs past the allocated length, and each big-endian word of
the image is copied into it (`some (_, true)`). -/
def read_image (vm : Vm) (bytes : List Nat) : Option (Vm × Bool) :=
  match bytes with
  | b0 :: b1 :: body =>
    let origin := (b0 % 256) * 256 + b1 % 256
    let len := body.length / 2
    if len > 65535 then some ({ vm with pc := origin }, false)
    else if origin + len > vm.memLen then none
    else
      let copied := fun a =>
        if origin ≤ a ∧ a < origin + len then
          (body.getD (2 * (a - origin)) 0 % 256) * 256 +
            body.getD (2 * (a - origin) + 1) 0 % 256
        else vm.mem a
      some ({ vm with pc := origin, mem := copied }, true)
  | _ => none

/-- Output bytes of the PUTS trap arm of `Vm::run`: the slice of every word
from `reg[0]` to the end of storage is scanned for the first zero word
(`position(..).unwrap_or_default()`, so index 0 when none exists) and the low
byte of every word before it is written. -/
def putsOut (vm : Vm) (addr : Nat) : List Nat :=
  let words := (List.range (vm.memLen - addr)).map (fun i => vm.mem (addr + i))
  let e := (words.findIdx? (fun w => w == 0)).getD 0
  (words.take e).map (fun w => w % 256)

/-- Output bytes of the PUTSP trap arm of `Vm::run`: for every word of the
slice from `reg[0]` to the end of storage (the loop has no terminator test),
the little-endian low byte is written always and the high byte only when it
is non-zero. -/
def putspOut (vm : Vm) (addr : Nat) : List Nat :=
  (List.range (vm.memLen - addr)).flatMap (fun i =>
    let w := vm.mem (addr + i)
    let lo := w % 256
    let hi := w / 256 % 256
    if hi ≠ 0 then [lo, hi] else [lo])

/-- Modelled from the spec (section 4.5, PUTSP): emit the low byte of each
word always and its high byte only when non-zero, stopping at the first word
whose low byte is zero, which is not emitted; `fuel` bounds the scan by the
length of the remaining address space. Used as the specification side against
which `putspOut` is compared. -/
def specPutspOut (vm : Vm) : Nat → Nat → List Nat
  | _, 0 => []
  | addr, fuel + 1 =>
    let w := vm.mem addr
    let lo := w % 256
    let hi := w / 256 % 256
    if lo = 0 then []
    else (lo :: (if hi ≠ 0 then [hi] else [])) ++ specPutspOut vm (addr + 1) fuel

/-- Output bytes of the println in the HALT trap arm (the word HALT and a
newline). -/
def haltBytes : List Nat := [72, 65, 76, 84, 10]

/-- Prompt bytes written by the IN trap arm (the text Enter a character
followed by a colon and space). -/
def promptBytes : List Nat :=
  [69, 110, 116, 101, 114, 32, 97, 32, 99, 104, 97, 114, 97, 99, 116, 101, 114, 58, 32]

/-- Execution of one already-fetched instruction word, the body of the while
loop of `Vm::run` after the fetch: decode the top 4 bits (an unwrap, `none`
when decoding fails), advance the pc by one wrapping, then dispatch. The
result is the machine state, the input environment, the running flag and the
bytes written to the output collaborator; `none` models a panic
(`unimplemented!` for Rti, Reserved and unknown trap vectors, out-of-bounds
storage access) or an execution stuck in a blocking byte read. -/
def execInst (vm : Vm) (env : Env) (inst : Nat) : Option (Vm × Env × Bool × List Nat) :=
  match tryFromOpcode (inst >>> 12) with
  | none => none
  | some op =>
    let vm := { vm with pc := (vm.pc + 1) % 65536 }
    match op with
    | .Br =>
      let nzp := (inst >>> 9) &&& 7
      let cur := vm.psr &&& 7
      if nzp &&& cur ≠ 0 then
        some ({ vm with pc := (vm.pc + sign_ext inst 9) % 65536 }, env, true, [])
      else some (vm, env, true, [])
    | .Add =>
      let dr := (inst >>> 9) &&& 7
      let sr1 := (inst >>> 6) &&& 7
      let v := if inst &&& 32 ≠ 0 then (vm.reg sr1 + sign_ext inst 5) % 65536
               else (vm.reg sr1 + vm.reg (inst &&& 7)) % 65536
      some (set_cc (set_reg vm dr v) dr, env, true, [])
    | .Ld =>
      let dr := (inst >>> 9) &&& 7
      match read_mem vm ((vm.pc + sign_ext inst 9) % 65536) env with
      | none => none
      | some (v, env) => some (set_cc (set_reg vm dr v) dr, env, true, [])
    | .St =>
      let sr := (inst >>> 9) &&& 7
      match write_mem vm ((vm.pc + sign_ext inst 9) % 65536) (vm.reg sr) with
      | none => none
      | some (vm, out) => some (vm, env, true, out)
    | .Jsr =>
      let temp := vm.pc
      let pcNew := if inst &&& 2048 ≠ 0 then (vm.pc + sign_ext inst 11) % 65536
                   else vm.reg ((inst >>> 6) &&& 7)
      some (set_reg { vm with pc := pcNew } 7 temp, env, true, [])
    | .And =>
      let dr := (inst >>> 9) &&& 7
      let sr1 := (inst >>> 6) &&& 7
      let v := if inst &&& 32 ≠ 0 then vm.reg sr1 &&& sign_ext inst 5
               else vm.reg sr1 &&& vm.reg (inst &&& 7)
      some (set_cc (set_reg vm dr v) dr, env, true, [])
    | .Ldr =>
      let dr := (inst >>> 9) &&& 7
      let br := (inst >>> 6) &&& 7
      match read_mem vm ((vm.reg br + sign_ext inst 6) % 65536) env with
      | none => none
      | some (v, env) => some (set_cc (set_reg vm dr v) dr, env, true, [])
    | .Str =>
      let sr := (inst >>> 9) &&& 7
      let br := (inst >>> 6) &&& 7
      match write_mem vm ((vm.reg br + sign_ext inst 6) % 65536) (vm.reg sr) with
      | none => none
      | some (vm, out) => some (vm, env, true, out)
    | .Not =>
      let dr := (inst >>> 9) &&& 7
      let sr1 := (inst >>> 6) &&& 7
      some (set_cc (set_reg vm dr (vm.reg sr1 ^^^ 65535)) dr, env, true, [])
    | .Ldi =>
      let dr := (inst >>> 9) &&& 7
      match read_mem vm ((vm.pc + sign_ext inst 9) % 65536) env with
      | none => none
      | some (addr, env) =>
        match read_mem vm addr env with
        | none => none
        | some (v, env) => some (set_cc (set_reg vm dr v) dr, env, true, [])
    | .Sti =>
      let sr := (inst >>> 9) &&& 7
      match read_mem vm ((vm.pc + sign_ext inst 9) % 65536) env with
      | none => none
      | some (addr, env) =>
        match write_mem vm addr (vm.reg sr) with
        | none => none
        | some (vm, out) => some (vm, env, true, out)
    | .Jmp =>
      some ({ vm with pc := vm.reg ((inst >>> 6) &&& 7) }, env, true, [])
    | .Lea =>
      let dr := (inst >>> 9) &&& 7
      some (set_cc (set_reg vm dr ((vm.pc + sign_ext inst 9) % 65536)) dr, env, true, [])
    | .Trap =>
      let vm := set_reg vm 7 vm.pc
      let t := inst &&& 255
      if t = 0x20 then
        match getch env with
        | none => none
        | some (b, env) => some (set_cc (set_reg vm 0 b) 0, env, true, [])
      else if t = 0x21 then some (vm, env, true, [vm.reg 0 % 256])
      else if t = 0x22 then
        if vm.reg 0 ≤ vm.memLen then some (vm, env, true, putsOut vm (vm.reg 0)) else none
      else if t = 0x23 then
        match getch env with
        | none => none
        | some (b, env) => some (vm, env, true, promptBytes ++ [b])
      else if t = 0x24 then
        if vm.reg 0 ≤ vm.memLen then some (vm, env, true, putspOut vm (vm.reg 0)) else none
      else if t = 0x25 then some (vm, env, false, haltBytes)
      else none
    | .Rti => none
    | .Reserved => none

/-- One iteration of the while loop of `Vm::run`: fetch the word at the pc
through `read_mem`, then execute it. -/
def execStep (vm : Vm) (env : Env) : Option (Vm × Env × Bool × List Nat) :=
  match read_mem vm vm.pc env with
  | none => none
  | some (inst, env) => execInst vm env inst

/-- Outcome of running the while loop of `Vm::run` under a fuel bound:
either the loop terminated (the running flag became false), the fuel ran out
with the machine still running, or an iteration panicked or got stuck. -/
inductive RunOutcome where
  | halted (vm : Vm) (env : Env) (count : Nat) (out : List Nat)
  | outOfFuel (vm : Vm) (env : Env) (count : Nat) (out : List Nat)
  | panicked

/-- Fuel-bounded embedding of the while loop of `Vm::run`, counting executed
instructions and accumulating output bytes. -/
def runLoop : Nat → Vm → Env → Nat → List Nat → RunOutcome
  | 0, vm, env, count, out => .outOfFuel vm env count out
  | fuel + 1, vm, env, count, out =>
    match execStep vm env with
    | none => .panicked
    | some (vm2, env2, running, o) =>
      if running then runLoop fuel vm2 env2 (count + 1) (out ++ o)
      else .halted vm2 env2 (count + 1) (out ++ o)

/-- Observables of a terminated run: the executed instruction count and the
final values of registers 0 and 1 and of the condition code, defined only
when the loop reached the halted state. -/
def runObs : RunOutcome → Option (Nat × Nat × Nat × Nat)
  | .halted vm _ count _ => some (count, vm.reg 0, vm.reg 1, vm.psr)
  | _ => none

/-- Modelled from the spec (claim wording for the Jsr row of the opcode
table, read as a sequence of mutations): first R7 is set to the
already-advanced pc, then the pc is set to pc plus the sign-extended 11-bit
offset when bit 11 is set, else to the value of register `br` — so that with
`br` = R7 the target is read from the register after R7 was updated. Used as
the specification side the executed Jsr is compared with. -/
def specJsrSeq (vm : Vm) (inst : Nat) : Vm :=
  let vm1 := { vm with pc := (vm.pc + 1) % 65536 }
  let vm2 := set_reg vm1 7 vm1.pc
  if inst &&& 2048 ≠ 0 then { vm2 with pc := (vm2.pc + sign_ext inst 11) % 65536 }
  else { vm2 with pc := vm2.reg ((inst >>> 6) &&& 7) }

/-- Input environment in which the select call succeeds (as it does whenever
the syscall itself does not fail, even with nothing pending) but no byte is
or ever becomes available on stdin. -/
def env0 : Env := { selectOk := true, avail := false, input := [] }

/-- Machine whose address space holds, at the initial pc 0x3000, the program
AND R0,R0,#0 (0x5020); ADD R0,R0,#5 (0x1025); ADD R1,R0,#-3 (0x123D);
TRAP 0x25 (0xF025), with the condition code initially in the zero state as
set up by main.rs. -/
def vmC1 : Vm :=
  { memLen := 65535
    mem := fun a =>
      if a = 0x3000 then 0x5020
      else if a = 0x3001 then 0x1025
      else if a = 0x3002 then 0x123D
      else if a = 0x3003 then 0xF025
      else 0
    pc := 0x3000
    reg := fun _ => 0
    psr := 2 }

/-- Freshly constructed machine about to execute a HALT trap: pc 0x3000
(already pointing at the instruction; all registers, R7 included, are 0). -/
def vmH : Vm := Vm.new 0x3000 2

/-- Machine with R7 = 0x1234 and pc = 0x3000, about to execute Jsrr with
base register R7 (instruction 0x41C0). -/
def vmJ : Vm := { Vm.new 0x3000 2 with reg := fun j => if j = 7 then 0x1234 else 0 }

/-- Machine whose storage holds the PUTSP operand 0x0041 at 0x3000, the
terminator word 0x0000 at 0x3001, and 0x0042 at 0x3002 (zero elsewhere). -/
def cvm : Vm :=
  { Vm.new 0 0 with
    mem := fun a => if a = 0x3000 then 0x41 else if a = 0x3002 then 0x42 else 0 }

/-- Result of executing the instruction word 0x1025 (ADD R0,R0,#5) on
`vmC1`, used to instantiate the condition-code theorem. -/
def resW : Vm × Env × Bool × List Nat := (execInst vmC1 env0 0x1025).getD default

/-- Helper: the value `set_cc` stores in the psr is always exactly one of the
three flag encodings 1 (positive), 2 (zero), 4 (negative). -/
theorem flagVal_cases (v : Nat) : flagVal v = 1 ∨ flagVal v = 2 ∨ flagVal v = 4 := by
  unfold flagVal
  split
  · exact Or.inr (Or.inl rfl)
  · split
    · exact Or.inr (Or.inr rfl)
    · exact Or.inl rfl

/-- Helper: a completed memory write never changes the condition code. -/
theorem write_mem_psr {vm vmW : Vm} {addr val : Nat} {out : List Nat}
    (h : write_mem vm addr val = some (vmW, out)) : vmW.psr = vm.psr := by
  unfold write_mem at h
  split at h
  · cases h; rfl
  · split at h
    · cases h; rfl
    · split at h
      · cases h; rfl
      · cases h

/-- Helper: `sign_ext` agrees with the specification extension at width 5. -/
theorem sign_ext_eq_spec_5 (v : Nat) : sign_ext v 5 = specSignExt v 5 := by
  have hmask : v &&& ((1 <<< 5) % 65536 - 1) = v % 2 ^ 5 := by
    have h := Nat.and_pow_two_sub_one_eq_mod v 5
    norm_num [Nat.shiftLeft_eq] at h ⊢
    exact h
  simp only [sign_ext, specSignExt]
  rw [hmask]
  have hm : v % 2 ^ 5 < 2 ^ 5 := Nat.mod_lt _ (by norm_num)
  generalize v % 2 ^ 5 = m at hm
  have hsr : m >>> 4 = m / 16 := by
    rw [Nat.shiftRight_eq_div_pow]
  have htb : m.testBit 4 = decide (m / 16 % 2 = 1) := by
    rw [Nat.testBit_to_div_mod]
  rw [hsr, Nat.and_one_is_mod, htb]
  rcases Nat.mod_two_eq_zero_or_one (m / 16) with h2 | h2
  · simp [h2]
  · have hor : m ||| 65504 = m + 65504 := by
      have hoa := Nat.mul_add_lt_is_or (i := 5) (b := m) hm 2047
      norm_num at hoa
      rw [Nat.lor_comm]
      omega
    simp [h2, hor]

/-- Helper: `sign_ext` agrees with the specification extension at width 6. -/
theorem sign_ext_eq_spec_6 (v : Nat) : sign_ext v 6 = specSignExt v 6 := by
  have hmask : v &&& ((1 <<< 6) % 65536 - 1) = v % 2 ^ 6 := by
    have h := Nat.and_pow_two_sub_one_eq_mod v 6
    norm_num [Nat.shiftLeft_eq] at h ⊢
    exact h
  simp only [sign_ext, specSignExt]
  rw [hmask]
  have hm : v % 2 ^ 6 < 2 ^ 6 := Nat.mod_lt _ (by norm_num)
  generalize v % 2 ^ 6 = m at hm
  have hsr : m >>> 5 = m / 32 := by
    rw [Nat.shiftRight_eq_div_pow]
  have htb : m.testBit 5 = decide (m / 32 % 2 = 1) := by
    rw [Nat.testBit_to_div_mod]
  rw [hsr, Nat.and_one_is_mod, htb]
  rcases Nat.mod_two_eq_zero_or_one (m / 32) with h2 | h2
  · simp [h2]
  · have hor : m ||| 65472 = m + 65472 := by
      have hoa := Nat.mul_add_lt_is_or (i := 6) (b := m) hm 1023
      norm_num at hoa
      rw [Nat.lor_comm]
      omega
    simp [h2, hor]

/-- Helper: `sign_ext` agrees with the specification extension at width 9. -/
theorem sign_ext_eq_spec_9 (v : Nat) : sign_ext v 9 = specSignExt v 9 := by
  have hmask : v &&& ((1 <<< 9) % 65536 - 1) = v % 2 ^ 9 := by
    have h := Nat.and_pow_two_sub_one_eq_mod v 9
    norm_num [Nat.shiftLeft_eq] at h ⊢
    exact h
  simp only [sign_ext, specSignExt]
  rw [hmask]
  have hm : v % 2 ^ 9 < 2 ^ 9 := Nat.mod_lt _ (by norm_num)
  generalize v % 2 ^ 9 = m at hm
  have hsr : m >>> 8 = m / 256 := by
    rw [Nat.shiftRight_eq_div_pow]
  have htb : m.testBit 8 = decide (m / 256 % 2 = 1) := by
    rw [Nat.testBit_to_div_mod]
  rw [hsr, Nat.and_one_is_mod, htb]
  rcases Nat.mod_two_eq_zero_or_one (m / 256) with h2 | h2
  · simp [h2]
  · have hor : m ||| 65024 = m + 65024 := by
      have hoa := Nat.mul_add_lt_is_or (i := 9) (b := m) hm 127
      norm_num at hoa
      rw [Nat.lor_comm]
      omega
    simp [h2, hor]

/-- Helper: `sign_ext` agrees with the specification extension at width 11. -/
theorem sign_ext_eq_spec_11 (v : Nat) : sign_ext v 11 = specSignExt v 11 := by
  have hmask : v &&& ((1 <<< 11) % 65536 - 1) = v % 2 ^ 11 := by
    have h := Nat.and_pow_two_sub_one_eq_mod v 11
    norm_num [Nat.shiftLeft_eq] at h ⊢
    exact h
  simp only [sign_ext, specSignExt]
  rw [hmask]
  have hm : v % 2 ^ 11 < 2 ^ 11 := Nat.mod_lt _ (by norm_num)
  generalize v % 2 ^ 11 = m at hm
  have hsr : m >>> 10 = m / 1024 := by
    rw [Nat.shiftRight_eq_div_pow]
  have htb : m.testBit 10 = decide (m / 1024 % 2 = 1) := by
    rw [Nat.testBit_to_div_mod]
  rw [hsr, Nat.and_one_is_mod, htb]
  rcases Nat.mod_two_eq_zero_or_one (m / 1024) with h2 | h2
  · simp [h2]
  · have hor : m ||| 63488 = m + 63488 := by
      have hoa := Nat.mul_add_lt_is_or (i := 11) (b := m) hm 31
      norm_num at hoa
      rw [Nat.lor_comm]
      omega
    simp [h2, hor]

/-- Claim C1: running the executor on a machine whose address space holds, at
the initial pc, the program AND R0,R0,#0; ADD R0,R0,#5; ADD R1,R0,#-3;
TRAP 0x25 terminates the run loop in the halted state after executing exactly
4 instructions, with R0 = 5, R1 = 2, and the condition code positive
(`runObs` yields `some` exactly on the halted outcome, and reports the
instruction count, R0, R1 and the psr, whose value 1 is the positive flag). -/
theorem end_to_end_halt : runObs (runLoop 10 vmC1 env0 0 []) = some (4, 5, 2, 1) := by
  rfl

/-- Claim C2, evaluated at the failing input: the backing storage of a
freshly constructed machine has 65535 cells, not 65536, so both a memory
read and a memory write at the 16-bit address 0xFFFF index the Vec out of
bounds and panic instead of accessing backing storage. -/
theorem address_space_oob :
    (Vm.new 0 0).memLen = 65535 ∧
    read_mem (Vm.new 0 0) 0xFFFF env0 = none ∧
    write_mem (Vm.new 0 0) 0xFFFF 0 = none :=
  ⟨rfl, rfl, rfl⟩

/-- Claim C3, counterexample: an image of exactly 65536 words (which does not
exceed 65536, so the claim says the load succeeds) is rejected with the
ImageTooLarge condition, because the code compares the word count against
65535. -/
theorem read_image_full_image_fails :
    (List.replicate 131072 (0 : Nat)).length / 2 = 65536 ∧
    read_image (Vm.new 0 0) (0 :: 0 :: List.replicate 131072 0) =
      some ({ Vm.new 0 0 with pc := 0 }, false) := by
  have hlen : (List.replicate 131072 (0 : Nat)).length = 131072 :=
    List.length_replicate 131072 0
  constructor
  · rw [hlen]
  · simp only [read_image]
    rw [hlen]
    norm_num

/-- Claim C3 as amended: loading fails with ImageTooLarge exactly when the
image word count exceeds 65535, and on that failure only the pc is changed
(the address space is untouched); an image whose word count is at most 65535
and whose copy range origin + count fits inside the allocated storage loads
successfully with the pc set to the origin. -/
theorem read_image_boundary (vm : Vm) (b0 b1 : Nat) (body : List Nat) :
    (body.length / 2 > 65535 →
      read_image vm (b0 :: b1 :: body) =
        some ({ vm with pc := (b0 % 256) * 256 + b1 % 256 }, false)) ∧
    (body.length / 2 ≤ 65535 →
      (b0 % 256) * 256 + b1 % 256 + body.length / 2 ≤ vm.memLen →
      (read_image vm (b0 :: b1 :: body)).map (fun r => (r.2, r.1.pc)) =
        some (true, (b0 % 256) * 256 + b1 % 256)) := by
  constructor
  · intro h1
    simp only [read_image]
    rw [if_pos h1]
  · intro h1 h2
    simp only [read_image]
    rw [if_neg (by omega), if_neg (by omega)]
    rfl

/-- Witness for claim C3: the spec loader round-trip image, origin 0x3000
with words 0x1001 and 0x1002, loads successfully with pc 0x3000. -/
theorem read_image_boundary_witness :
    (read_image (Vm.new 0 0) (0x30 :: 0 :: [0x10, 1, 0x10, 2])).map
        (fun r => (r.2, r.1.pc)) = some (true, 0x3000) :=
  (read_image_boundary (Vm.new 0 0) 0x30 0 [0x10, 1, 0x10, 2]).2 (by decide) (by decide)

/-- Claim C4, evaluated at the failing input: with 0x0041 at 0x3000, the
terminator word (low byte zero) at 0x3001 and 0x0042 at 0x3002, the PUTSP
output of the code still contains the byte 0x42 lying past the terminator,
while the specified output stops before the terminator and is exactly
the single byte 0x41. -/
theorem putsp_runs_past_terminator :
    cvm.mem 0x3001 % 256 = 0 ∧
    0x42 ∈ putspOut cvm 0x3000 ∧
    specPutspOut cvm 0x3000 (cvm.memLen - 0x3000) = [0x41] := by
  refine ⟨rfl, ?_, ?_⟩
  · unfold putspOut
    refine List.mem_flatMap.mpr ⟨2, List.mem_range.mpr (by decide), ?_⟩
    decide
  · decide

/-- Claim C5, counterexample: executing HALT on a machine whose R7 is 0
leaves R7 equal to 0x3001 (the advanced pc), not 0 — the trap dispatch
writes the return address into R7 before recognizing the HALT vector, so
HALT is not free of register effects. -/
theorem halt_clobbers_r7 :
    vmH.reg 7 = 0 ∧
    (execInst vmH env0 0xF025).map (fun r => (r.1.reg 7, r.2.2.1)) = some (0x3001, false) ∧
    (0x3001 : Nat) ≠ 0 :=
  ⟨rfl, rfl, by decide⟩

/-- Claim C5 as amended: executing the HALT trap clears the running flag and,
besides the trap-common update R7 := already-advanced pc, changes nothing:
the single equation exhibits the whole result state, in which the storage,
its length, the condition code and every register other than R7 are those of
the starting machine, and the only output is the HALT report. -/
theorem halt_frame (vm : Vm) (env : Env) (inst : Nat)
    (hop : inst >>> 12 = 15) (hv : inst &&& 255 = 0x25) :
    execInst vm env inst =
      some (set_reg { vm with pc := (vm.pc + 1) % 65536 } 7 ((vm.pc + 1) % 65536),
        env, false, haltBytes) := by
  unfold execInst
  rw [hop]
  norm_num [tryFromOpcode, hv]

/-- Witness for claim C5: the HALT frame theorem evaluated on the concrete
machine `vmH` executing the instruction word 0xF025. -/
theorem halt_frame_witness :
    execInst vmH env0 0xF025 =
      some (set_reg { vmH with pc := (vmH.pc + 1) % 65536 } 7 ((vmH.pc + 1) % 65536),
        env0, false, haltBytes) :=
  halt_frame vmH env0 0xF025 (by decide) (by decide)

/-- Claim C6: after every completed register-writing instruction — Add (1),
And (5), Not (9), Ld (2), Ldi (10), Ldr (6), Lea (14), identified by the top
4 bits of the instruction word — the psr equals the flag value of the
destination register content (zero flag 2 for value 0, negative flag 4 when
bit 15 is set, positive flag 1 otherwise), hence exactly one flag is set;
after the store instructions St (3), Sti (11), Str (7) and the pure
control-flow instructions Br (0), Jmp (12), Jsr (4) the condition code is
unchanged. -/
theorem cc_discipline (vm : Vm) (env : Env) (inst : Nat)
    (res : Vm × Env × Bool × List Nat)
    (h : execInst vm env inst = some res) :
    ((inst >>> 12 = 1 ∨ inst >>> 12 = 5 ∨ inst >>> 12 = 9 ∨ inst >>> 12 = 2 ∨
      inst >>> 12 = 10 ∨ inst >>> 12 = 6 ∨ inst >>> 12 = 14) →
      res.1.psr = flagVal (res.1.reg ((inst >>> 9) &&& 7)) ∧
      (res.1.psr = 1 ∨ res.1.psr = 2 ∨ res.1.psr = 4)) ∧
    ((inst >>> 12 = 3 ∨ inst >>> 12 = 11 ∨ inst >>> 12 = 7 ∨ inst >>> 12 = 0 ∨
      inst >>> 12 = 12 ∨ inst >>> 12 = 4) →
      res.1.psr = vm.psr) := by
  constructor
  · intro hop
    unfold execInst at h
    rcases hop with h12|h12|h12|h12|h12|h12|h12 <;> rw [h12] at h <;>
        norm_num [tryFromOpcode] at h
    case _ =>
      subst h
      exact ⟨rfl, flagVal_cases _⟩
    case _ =>
      subst h
      exact ⟨rfl, flagVal_cases _⟩
    case _ =>
      subst h
      exact ⟨rfl, flagVal_cases _⟩
    case _ =>
      split at h
      · cases h
      · rw [Option.some.injEq] at h
        subst h
        exact ⟨rfl, flagVal_cases _⟩
    case _ =>
      split at h
      · cases h
      · split at h
        · cases h
        · rw [Option.some.injEq] at h
          subst h
          exact ⟨rfl, flagVal_cases _⟩
    case _ =>
      split at h
      · cases h
      · rw [Option.some.injEq] at h
        subst h
        exact ⟨rfl, flagVal_cases _⟩
    case _ =>
      subst h
      exact ⟨rfl, flagVal_cases _⟩
  · intro hop
    unfold execInst at h
    rcases hop with h12|h12|h12|h12|h12|h12 <;> rw [h12] at h <;>
        norm_num [tryFromOpcode] at h
    case _ =>
      split at h
      · cases h
      · rename_i vmW out hw
        rw [Option.some.injEq] at h
        subst h
        exact (write_mem_psr hw).trans rfl
    case _ =>
      split at h
      · cases h
      · split at h
        · cases h
        · rename_i vmW out hw
          rw [Option.some.injEq] at h
          subst h
          exact (write_mem_psr hw).trans rfl
    case _ =>
      split at h
      · cases h
      · rename_i vmW out hw
        rw [Option.some.injEq] at h
        subst h
        exact (write_mem_psr hw).trans rfl
    case _ =>
      split at h
      · rw [Option.some.injEq] at h
        subst h
        rfl
      · rw [Option.some.injEq] at h
        subst h
        rfl
    case _ =>
      subst h
      rfl
    case _ =>
      subst h
      rfl

/-- Witness for claim C6: the condition-code theorem evaluated at the Add
instruction 0x1025 executed on the concrete machine `vmC1`. -/
theorem cc_discipline_witness :
    (((0x1025 : Nat) >>> 12 = 1 ∨ (0x1025 : Nat) >>> 12 = 5 ∨ (0x1025 : Nat) >>> 12 = 9 ∨
      (0x1025 : Nat) >>> 12 = 2 ∨ (0x1025 : Nat) >>> 12 = 10 ∨ (0x1025 : Nat) >>> 12 = 6 ∨
      (0x1025 : Nat) >>> 12 = 14) →
      resW.1.psr = flagVal (resW.1.reg (((0x1025 : Nat) >>> 9) &&& 7)) ∧
      (resW.1.psr = 1 ∨ resW.1.psr = 2 ∨ resW.1.psr = 4)) ∧
    (((0x1025 : Nat) >>> 12 = 3 ∨ (0x1025 : Nat) >>> 12 = 11 ∨ (0x1025 : Nat) >>> 12 = 7 ∨
      (0x1025 : Nat) >>> 12 = 0 ∨ (0x1025 : Nat) >>> 12 = 12 ∨ (0x1025 : Nat) >>> 12 = 4) →
      resW.1.psr = vmC1.psr) :=
  cc_discipline vmC1 env0 0x1025 resW rfl

/-- Claim C7, evaluated at the failing input: in an environment where the
select call succeeds but no byte is available (`avail` false, empty stream) —
exactly the situation select produces by returning Ok with a zero count —
reading the keyboard status address yields 0x80, the ready bit set, not 0;
the subsequent keyboard data read therefore calls the blocking byte read and
gets stuck (`none`) instead of returning 0. -/
theorem keyboard_status_always_ready :
    is_ready_to_read env0 = true ∧ env0.avail = false ∧
    read_mem (Vm.new 0 0) KBSR env0 = some (0x80, env0) ∧ (0x80 : Nat) ≠ 0 ∧
    read_mem (Vm.new 0 0) KBDR env0 = none :=
  ⟨rfl, rfl, rfl, by decide, rfl⟩

/-- Claim C8: for every 16-bit value and every bit width in {5, 6, 9, 11},
`sign_ext` first masks the value to its low bits and then replicates the new
top bit into all higher bits of a 16-bit result (the specification extension
`specSignExt`); in particular it maps 0b10011 at width 5 to 0xFFF3 and 0x30
at width 5 to 0xFFF0. -/
theorem sign_ext_spec (v b : Nat) (_hv : v < 65536)
    (hb : b = 5 ∨ b = 6 ∨ b = 9 ∨ b = 11) :
    sign_ext v b = specSignExt v b ∧
    sign_ext 0b10011 5 = 0xFFF3 ∧ sign_ext 0x30 5 = 0xFFF0 := by
  refine ⟨?_, by decide, by decide⟩
  rcases hb with h | h | h | h <;> subst h
  · exact sign_ext_eq_spec_5 v
  · exact sign_ext_eq_spec_6 v
  · exact sign_ext_eq_spec_9 v
  · exact sign_ext_eq_spec_11 v

/-- Witness for claim C8: the sign-extension theorem evaluated at value
19 = 0b10011 and width 5. -/
theorem sign_ext_spec_witness :
    sign_ext 19 5 = specSignExt 19 5 ∧
    sign_ext 0b10011 5 = 0xFFF3 ∧ sign_ext 0x30 5 = 0xFFF0 :=
  sign_ext_spec 19 5 (by decide) (Or.inl rfl)

/-- Claim C9, counterexample: executing Jsrr with base register R7
(instruction 0x41C0) on a machine with R7 = 0x1234 and advanced pc 0x3001
sets the pc to 0x1234, the value R7 held before the instruction, whereas the
claim reading — R7 is written first, the pc is then loaded from register br —
yields pc 0x3001. -/
theorem jsr_base_r7_divergence :
    (execInst vmJ env0 0x41C0).map (fun r => (r.1.pc, r.1.reg 7)) = some (0x1234, 0x3001) ∧
    (specJsrSeq vmJ 0x41C0).pc = 0x3001 ∧
    (0x1234 : Nat) ≠ 0x3001 :=
  ⟨rfl, rfl, by decide⟩

/-- Claim C9 as amended: a Jsr instruction evaluates its target first — the
already-advanced pc plus the sign-extended 11-bit offset when bit 11 is set,
else the value the base register held before the instruction (so Jsrr
through R7 jumps to the old R7) — and only then stores the already-advanced
pc into R7. -/
theorem jsr_semantics (vm : Vm) (env : Env) (inst : Nat)
    (hop : inst >>> 12 = 4) :
    execInst vm env inst =
      some (set_reg
        { vm with pc := if inst &&& 2048 ≠ 0
            then ((vm.pc + 1) % 65536 + sign_ext inst 11) % 65536
            else vm.reg ((inst >>> 6) &&& 7) }
        7 ((vm.pc + 1) % 65536), env, true, []) := by
  unfold execInst
  rw [hop]
  norm_num [tryFromOpcode]

/-- Witness for claim C9: the Jsr theorem evaluated on the concrete machine
`vmJ` executing the Jsrr instruction 0x41C0 with base register R7. -/
theorem jsr_semantics_witness :
    execInst vmJ env0 0x41C0 =
      some (set_reg
        { vmJ with pc := if (0x41C0 : Nat) &&& 2048 ≠ 0
            then ((vmJ.pc + 1) % 65536 + sign_ext 0x41C0 11) % 65536
            else vmJ.reg (((0x41C0 : Nat) >>> 6) &&& 7) }
        7 ((vmJ.pc + 1) % 65536), env0, true, []) :=
  jsr_semantics vmJ env0 0x41C0 (by decide)

/-- Claim C10: for every fetched 16-bit instruction word the value of the top
4 bits is at most 15, so converting it to an opcode always succeeds — the
error branch of the opcode conversion is unreachable from the fetch path. -/
theorem decode_total (inst : Nat) (h : inst < 65536) :
    inst >>> 12 ≤ 15 ∧ (tryFromOpcode (inst >>> 12)).isSome = true := by
  have h1 : inst >>> 12 ≤ 15 := by
    rw [Nat.shiftRight_eq_div_pow]
    omega
  refine ⟨h1, ?_⟩
  unfold tryFromOpcode
  rw [if_neg (by omega)]
  rfl

/-- Witness for claim C10: the decode theorem evaluated at the instruction
word 0xF025. -/
theorem decode_total_witness :
    (0xF025 : Nat) >>> 12 ≤ 15 ∧ (tryFromOpcode ((0xF025 : Nat) >>> 12)).isSome = true :=
  decode_total 0xF025 (by decide)
